import Mathlib

/-!
Shallow embedding of the confirmation pipeline of the trustlines-blockchain
bridge validator daemon, translated from
`tools/bridge/bridge/confirmation_task_planner.py` and
`tools/bridge/bridge/confirmation_sender.py`.

Modelling conventions:
* Python `float` timestamps (`time.time()` values) are modelled as `ℚ`;
  every operation the code performs on them (comparison, `min`, addition)
  is captured exactly for representable values.
* `Hash32` values (32-byte transfer hashes, already decoded from hex) and
  addresses are modelled as `ℕ`.
* Python `set` becomes `Finset ℕ`; the `dict` `transfer_events` becomes an
  association list queried through `List.lookup` (assignment prepends, so
  the newest binding shadows; deletion removes every binding of the key —
  observationally equal to the Python dict).
* A method that can raise (`ValueError`, `AssertionError`, attribute
  errors) returns `Except String _`; the source raises before mutating, so
  an erroring call leaves the recorder unchanged.
-/

abbrev Hash32 := ℕ

/-- A foreign-chain `Transfer` event as delivered to the recorder and the
sender: the web3 `AttributeDict` flattened.  `event` is the event name,
`transferHash` the decoded `args.transferHash`, `value` is `args.value`,
`fromAddress` is `args["from"]` and `toAddress` is `args.to`. -/
structure TransferEvent where
  event : String
  transferHash : Hash32
  transactionHash : ℕ
  logIndex : ℕ
  value : ℕ
  fromAddress : ℕ
  toAddress : ℕ
deriving DecidableEq

abbrev EventMap := List (Hash32 × TransferEvent)

/-- The key set of the `transfer_events` dict. -/
def keysOf (m : EventMap) : Finset Hash32 := (m.map Prod.fst).toFinset

def TRANSFER_EVENT_NAME : String := "Transfer"

def CONFIRMATION_EVENT_NAME : String := "Confirmation"

def COMPLETION_EVENT_NAME : String := "TransferCompleted"

/-- State of `TransferRecorder` (`confirmation_task_planner.py`). -/
structure TransferRecorder where
  sync_persistence_time : ℚ
  transfer_events : EventMap
  transfer_hashes : Finset Hash32
  confirmation_hashes : Finset Hash32
  completion_hashes : Finset Hash32
  scheduled_hashes : Finset Hash32
  confirmations_synced_until : ℚ
  completions_synced_until : ℚ
deriving DecidableEq

/-- `TransferRecorder.__init__`. -/
def freshRecorder (sync_persistence_time : ℚ) : TransferRecorder where
  sync_persistence_time := sync_persistence_time
  transfer_events := []
  transfer_hashes := ∅
  confirmation_hashes := ∅
  completion_hashes := ∅
  scheduled_hashes := ∅
  confirmations_synced_until := 0
  completions_synced_until := 0

/-- `TransferRecorder.apply_sync_completed`. -/
def TransferRecorder.apply_sync_completed (self : TransferRecorder)
    (event : String) (timestamp : ℚ) : Except String TransferRecorder :=
  if event = TRANSFER_EVENT_NAME then
    .ok self
  else if event = CONFIRMATION_EVENT_NAME then
    if timestamp < self.confirmations_synced_until then
      .error "Sync time must never decrease"
    else
      .ok { self with confirmations_synced_until := timestamp }
  else if event = COMPLETION_EVENT_NAME then
    if timestamp < self.completions_synced_until then
      .error "Sync time must never decrease"
    else
      .ok { self with completions_synced_until := timestamp }
  else
    .error ("Got unknown event " ++ event)

/-- `TransferRecorder.apply_event`. -/
def TransferRecorder.apply_event (self : TransferRecorder)
    (event : TransferEvent) : Except String TransferRecorder :=
  if event.event = TRANSFER_EVENT_NAME then
    .ok { self with
            transfer_hashes := insert event.transferHash self.transfer_hashes,
            transfer_events := (event.transferHash, event) :: self.transfer_events }
  else if event.event = CONFIRMATION_EVENT_NAME then
    .ok { self with
            confirmation_hashes := insert event.transferHash self.confirmation_hashes }
  else if event.event = COMPLETION_EVENT_NAME then
    .ok { self with
            completion_hashes := insert event.transferHash self.completion_hashes }
  else
    .error ("Got unknown event " ++ event.event)

/-- Python's built-in `min` on two numbers: returns the second argument
exactly when it is strictly smaller (kernel-computable form; equal to
Mathlib's `min`, see `python_min_eq_min`). -/
def python_min (a b : ℚ) : ℚ := if (Rat.blt b a : Bool) then b else a

/-- `TransferRecorder.is_in_sync`. -/
def TransferRecorder.is_in_sync (self : TransferRecorder) (current_time : ℚ) : Bool :=
  decide (current_time ≤
    python_min self.confirmations_synced_until self.completions_synced_until
      + self.sync_persistence_time)

/-- `TransferRecorder.clear_transfers`. -/
def TransferRecorder.clear_transfers (self : TransferRecorder) : TransferRecorder :=
  let all_stages_seen :=
    self.transfer_hashes ∩ self.confirmation_hashes ∩ self.completion_hashes
  { self with
      transfer_hashes := self.transfer_hashes \ all_stages_seen,
      scheduled_hashes := self.scheduled_hashes \ all_stages_seen,
      transfer_events :=
        self.transfer_events.filter (fun p => decide (p.1 ∉ all_stages_seen)) }

/-- `TransferRecorder.get_unconfirmed_transfers`: returns the emitted
events together with the post-state (the Python method mutates `self`). -/
def TransferRecorder.get_unconfirmed_transfers (self : TransferRecorder)
    (current_time : ℚ) : List TransferEvent × TransferRecorder :=
  if self.is_in_sync current_time then
    let unconfirmed_transfer_hashes :=
      ((self.transfer_hashes \ self.confirmation_hashes)
        \ self.completion_hashes) \ self.scheduled_hashes
    ((unconfirmed_transfer_hashes.sort (· ≤ ·)).filterMap
        (fun h => List.lookup h self.transfer_events),
     { self with
         scheduled_hashes := self.scheduled_hashes ∪ unconfirmed_transfer_hashes })
  else
    ([], self)

theorem rat_blt_iff (x y : ℚ) : (Rat.blt x y = true) ↔ x < y := Iff.rfl

theorem python_min_eq_min (a b : ℚ) : python_min a b = min a b := by
  unfold python_min
  rw [min_def]
  rcases le_or_lt a b with h | h
  · rw [if_neg (by rw [rat_blt_iff]; exact not_lt.mpr h), if_pos h]
  · rw [if_pos ((rat_blt_iff b a).mpr h), if_neg (not_le.mpr h)]

/-- The recorder operations a client (the Confirmation Task Planner) can
invoke on a `TransferRecorder`. -/
inductive RecorderOp where
  | applyEvent (event : TransferEvent)
  | applySyncCompleted (event : String) (timestamp : ℚ)
  | getUnconfirmedTransfers (current_time : ℚ)
  | clearTransfers
deriving DecidableEq

/-- One recorder call in a call sequence.  The source raises `ValueError`
before performing any mutation, so a call that raises leaves the recorder
state exactly as it was. -/
def TransferRecorder.applyOp (self : TransferRecorder) : RecorderOp → TransferRecorder
  | .applyEvent event =>
      match self.apply_event event with
      | .ok r => r
      | .error _ => self
  | .applySyncCompleted event timestamp =>
      match self.apply_sync_completed event timestamp with
      | .ok r => r
      | .error _ => self
  | .getUnconfirmedTransfers current_time =>
      (self.get_unconfirmed_transfers current_time).2
  | .clearTransfers => self.clear_transfers

/-- Run a sequence of recorder calls, oldest first. -/
def TransferRecorder.runOps (self : TransferRecorder)
    (ops : List RecorderOp) : TransferRecorder :=
  ops.foldl TransferRecorder.applyOp self

/-!
Embedding of `confirmation_sender.py`.
-/

/-- Modelled from the spec: `CONFIRMATION_TRANSACTION_GAS_LIMIT` is defined
in `bridge/constants.py`, which is not part of the sources; the spec only
says the gas limit is a hard-coded constant (a contract-enforced upper
bound), so the development uses a fixed but otherwise arbitrary value and
never depends on it. -/
def CONFIRMATION_TRANSACTION_GAS_LIMIT : ℕ := 500000

/-- Modelled from the spec: `compute_transfer_hash` is defined in
`bridge/utils.py`, which is not part of the sources; the spec states the
transfer hash is derived deterministically from
`(foreign_transaction_hash, log_index)`, modelled here as an injective
pairing of the two. -/
def compute_transfer_hash (transfer_event : TransferEvent) : ℕ :=
  Nat.pair transfer_event.transactionHash transfer_event.logIndex

/-- The result of `Sender.prepare_confirmation_transaction`: a signed
transaction calling `confirmTransfer` on the home bridge contract.
Signing preserves every field, so the signature itself is not modelled. -/
structure SignedConfirmationTransaction where
  transferHash : ℕ
  transactionHash : ℕ
  amount : ℕ
  recipient : ℕ
  gasPrice : ℕ
  nonce : ℕ
  gas : ℕ
deriving DecidableEq

/-- `Sender.prepare_confirmation_transaction`. -/
def prepare_confirmation_transaction (transfer_event : TransferEvent)
    (gas_price : ℕ) (nonce : ℕ) : SignedConfirmationTransaction where
  transferHash := compute_transfer_hash transfer_event
  transactionHash := transfer_event.transactionHash
  amount := transfer_event.value
  recipient := transfer_event.fromAddress
  gasPrice := gas_price
  nonce := nonce
  gas := CONFIRMATION_TRANSACTION_GAS_LIMIT

/-- Modelled from the spec: `make_sanity_check_transfer` is imported by
`main.py` from `bridge.confirmation_sender` but is absent from the copy of
`confirmation_sender.py` in the sources; per the spec, the check confirms
that the event's `to` address equals the configured foreign bridge
contract address. -/
def sanity_check_transfer (foreign_bridge_contract_address : ℕ)
    (transfer_event : TransferEvent) : Bool :=
  transfer_event.toAddress == foreign_bridge_contract_address

/-- Modelled from the spec: one iteration of the sanity-checking Sender
loop (the version of `ConfirmationSender` that `main.py` constructs with a
`sanity_check_transfer` argument, absent from the sources).  An event that
fails the sanity check is dropped with a warning and produces no
transaction; an event that passes is built and signed via
`prepare_confirmation_transaction`. -/
def sender_process_event (foreign_bridge_contract_address : ℕ)
    (gas_price : ℕ) (nonce : ℕ) (transfer_event : TransferEvent) :
    Option SignedConfirmationTransaction :=
  if sanity_check_transfer foreign_bridge_contract_address transfer_event then
    some (prepare_confirmation_transaction transfer_event gas_price nonce)
  else
    none

/-- An element of the Watcher's `pending_transaction_queue`. -/
structure PendingTransaction where
  hash : ℕ
deriving DecidableEq

/-- A transaction receipt as returned by `eth_getTransactionReceipt`. -/
structure TxReceipt where
  transactionHash : ℕ
  blockNumber : ℕ
  status : ℕ
deriving DecidableEq

/-- `Watcher.clear_confirmed_transactions`.  `get_receipt` models
`_rpc_get_receipt`, which returns `none` when the node raises
`TransactionNotFound`.  The queue is FIFO with the oldest pending
transaction first.  The source line
`assert receipt.transactionHash == oldest_pending_transaction.hash`
dereferences `receipt` before the `if receipt and ...` `None`-check, so a
missing receipt raises `AttributeError` (modelled as `.error`), and a
receipt for a different transaction raises `AssertionError`. -/
def clear_confirmed_transactions (get_receipt : ℕ → Option TxReceipt)
    (latest_block : ℕ) (max_reorg_depth : ℕ) :
    List PendingTransaction → Except String (List PendingTransaction)
  | [] => .ok []
  | oldest_pending_transaction :: rest =>
      match get_receipt oldest_pending_transaction.hash with
      | none => .error "AttributeError: NoneType object has no attribute transactionHash"
      | some receipt =>
          if receipt.transactionHash = oldest_pending_transaction.hash then
            if (receipt.blockNumber : ℤ) ≤ (latest_block : ℤ) - (max_reorg_depth : ℤ) then
              clear_confirmed_transactions get_receipt latest_block max_reorg_depth rest
            else
              .ok (oldest_pending_transaction :: rest)
          else
            .error "AssertionError"

/-!
Concrete sample data used to witness the theorems below at specific
inputs.
-/

/-- A sample foreign-chain `Transfer` event with transfer hash `1`,
deposited by address `21` to the bridge at address `22`. -/
def tEvent1 : TransferEvent where
  event := "Transfer"
  transferHash := 1
  transactionHash := 11
  logIndex := 0
  value := 100
  fromAddress := 21
  toAddress := 22

/-- A second sample `Transfer` event with transfer hash `2`. -/
def tEvent2 : TransferEvent where
  event := "Transfer"
  transferHash := 2
  transactionHash := 12
  logIndex := 1
  value := 200
  fromAddress := 23
  toAddress := 22

/-- A sample recorder holding two transfers, of which transfer `1` has
been confirmed, completed and scheduled, with fresh (time `0`) watermarks
and a sync persistence time of `1`. -/
def recC : TransferRecorder where
  sync_persistence_time := 1
  transfer_events := [(1, tEvent1), (2, tEvent2)]
  transfer_hashes := {1, 2}
  confirmation_hashes := {1}
  completion_hashes := {1}
  scheduled_hashes := {1}
  confirmations_synced_until := 0
  completions_synced_until := 0

/-- A sample empty recorder whose two sync watermarks stand at time `5`. -/
def recS : TransferRecorder where
  sync_persistence_time := 1
  transfer_events := []
  transfer_hashes := ∅
  confirmation_hashes := ∅
  completion_hashes := ∅
  scheduled_hashes := ∅
  confirmations_synced_until := 5
  completions_synced_until := 5

/-- A chain on which `eth_getTransactionReceipt` raises
`TransactionNotFound` for every transaction hash. -/
def absent_receipts : ℕ → Option TxReceipt := fun _ => none

/-!
Helper lemmas.
-/

theorem lookup_cons_self {m : EventMap} {k : Hash32} {v : TransferEvent} :
    List.lookup k ((k, v) :: m) = some v := by
  simp [List.lookup]

theorem lookup_cons_ne {m : EventMap} {h k : Hash32} {v : TransferEvent}
    (hk : h ≠ k) : List.lookup h ((k, v) :: m) = List.lookup h m := by
  have hbeq : (h == k) = false := beq_false_of_ne hk
  simp [List.lookup, hbeq]

theorem mem_keysOf {m : EventMap} {h : Hash32} :
    h ∈ keysOf m ↔ (List.lookup h m).isSome := by
  induction m with
  | nil => simp [keysOf, List.lookup]
  | cons p m ih =>
      obtain ⟨k, v⟩ := p
      by_cases hk : h = k
      · subst hk
        simp [keysOf, lookup_cons_self]
      · rw [lookup_cons_ne hk]
        rw [show keysOf ((k, v) :: m) = insert k (keysOf m) by simp [keysOf]]
        rw [Finset.mem_insert]
        simp only [hk, false_or]
        exact ih

theorem lookup_filter_not_mem (m : EventMap) (s : Finset Hash32) (h : Hash32) :
    List.lookup h (m.filter (fun p => decide (p.1 ∉ s)))
      = if h ∈ s then none else List.lookup h m := by
  induction m with
  | nil => simp [List.lookup]
  | cons p m ih =>
      obtain ⟨k, v⟩ := p
      by_cases hks : k ∈ s
      · rw [List.filter_cons_of_neg (by simpa using hks)]
        rw [ih]
        by_cases hk : h = k
        · subst hk
          rw [if_pos hks, if_pos hks]
        · rw [lookup_cons_ne hk]
      · rw [List.filter_cons_of_pos (by simpa using hks)]
        by_cases hk : h = k
        · subst hk
          rw [if_neg hks, lookup_cons_self, lookup_cons_self]
        · rw [lookup_cons_ne hk, lookup_cons_ne hk, ih]

theorem length_filterMap_of_isSome {α β : Type} (f : α → Option β) :
    ∀ l : List α, (∀ a ∈ l, (f a).isSome) → (l.filterMap f).length = l.length := by
  intro l
  induction l with
  | nil => simp
  | cons a l ih =>
      intro hl
      have ha : (f a).isSome := hl a (by simp)
      obtain ⟨b, hb⟩ := Option.isSome_iff_exists.mp ha
      rw [List.filterMap_cons_some hb]
      simp only [List.length_cons]
      rw [ih (fun x hx => hl x (by simp [hx]))]

/-- Every single recorder call leaves the confirmation and completion hash
sets at least as large, and never decreases either sync watermark. -/
theorem applyOp_mono (r : TransferRecorder) (op : RecorderOp) :
    r.confirmation_hashes ⊆ (r.applyOp op).confirmation_hashes ∧
    r.completion_hashes ⊆ (r.applyOp op).completion_hashes ∧
    r.confirmations_synced_until ≤ (r.applyOp op).confirmations_synced_until ∧
    r.completions_synced_until ≤ (r.applyOp op).completions_synced_until := by
  cases op with
  | applyEvent event =>
      simp only [TransferRecorder.applyOp, TransferRecorder.apply_event]
      split_ifs <;>
        simp [Finset.subset_insert, Finset.Subset.refl, le_refl]
  | applySyncCompleted event timestamp =>
      simp only [TransferRecorder.applyOp, TransferRecorder.apply_sync_completed]
      split_ifs with h1 h2 h3 h4 h5 <;>
        simp_all [Finset.Subset.refl, le_refl, le_of_not_lt]
  | getUnconfirmedTransfers current_time =>
      simp only [TransferRecorder.applyOp, TransferRecorder.get_unconfirmed_transfers]
      split_ifs <;>
        simp [Finset.Subset.refl, le_refl]
  | clearTransfers =>
      simp only [TransferRecorder.applyOp, TransferRecorder.clear_transfers]
      simp [Finset.Subset.refl, le_refl]

/-- `applyOp_mono` extended along an arbitrary call sequence. -/
theorem runOps_mono (r : TransferRecorder) (ops : List RecorderOp) :
    r.confirmation_hashes ⊆ (r.runOps ops).confirmation_hashes ∧
    r.completion_hashes ⊆ (r.runOps ops).completion_hashes ∧
    r.confirmations_synced_until ≤ (r.runOps ops).confirmations_synced_until ∧
    r.completions_synced_until ≤ (r.runOps ops).completions_synced_until := by
  induction ops generalizing r with
  | nil =>
      exact ⟨Finset.Subset.refl _, Finset.Subset.refl _, le_refl _, le_refl _⟩
  | cons op ops ih =>
      have h1 := applyOp_mono r op
      have h2 := ih (r.applyOp op)
      exact ⟨h1.1.trans h2.1, h1.2.1.trans h2.2.1,
        h1.2.2.1.trans h2.2.2.1, h1.2.2.2.trans h2.2.2.2⟩

/-- Every single recorder call preserves `scheduled ⊆ seen_transfers`. -/
theorem applyOp_scheduled_subset {r : TransferRecorder}
    (hr : r.scheduled_hashes ⊆ r.transfer_hashes) (op : RecorderOp) :
    (r.applyOp op).scheduled_hashes ⊆ (r.applyOp op).transfer_hashes := by
  cases op with
  | applyEvent event =>
      simp only [TransferRecorder.applyOp, TransferRecorder.apply_event]
      split_ifs <;>
        simp only [] <;>
        first
          | exact hr
          | exact hr.trans (Finset.subset_insert _ _)
  | applySyncCompleted event timestamp =>
      simp only [TransferRecorder.applyOp, TransferRecorder.apply_sync_completed]
      split_ifs <;> exact hr
  | getUnconfirmedTransfers current_time =>
      simp only [TransferRecorder.applyOp, TransferRecorder.get_unconfirmed_transfers]
      split_ifs
      · exact Finset.union_subset hr
          (((Finset.sdiff_subset.trans Finset.sdiff_subset).trans Finset.sdiff_subset))
      · exact hr
  | clearTransfers =>
      simp only [TransferRecorder.applyOp, TransferRecorder.clear_transfers]
      exact Finset.sdiff_subset_sdiff hr (Finset.Subset.refl _)

/-- `applyOp_scheduled_subset` extended along an arbitrary call sequence. -/
theorem runOps_scheduled_subset {r : TransferRecorder}
    (hr : r.scheduled_hashes ⊆ r.transfer_hashes) (ops : List RecorderOp) :
    (r.runOps ops).scheduled_hashes ⊆ (r.runOps ops).transfer_hashes := by
  induction ops generalizing r with
  | nil => exact hr
  | cons op ops ih => exact ih (applyOp_scheduled_subset hr op)

/-!
Claim theorems.
-/

/-- C4: `apply_sync_completed` with a timestamp strictly below the
corresponding watermark (`Confirmation` or `TransferCompleted`) raises
`ValueError` and leaves the recorder unchanged; with a timestamp at or
above the watermark it succeeds and sets the watermark to that timestamp,
so both watermarks are monotonically non-decreasing over any call
sequence. -/
theorem apply_sync_completed_spec (r : TransferRecorder) (t : ℚ) :
    (t < r.confirmations_synced_until →
      r.apply_sync_completed CONFIRMATION_EVENT_NAME t
          = .error "Sync time must never decrease" ∧
      r.applyOp (.applySyncCompleted CONFIRMATION_EVENT_NAME t) = r) ∧
    (t < r.completions_synced_until →
      r.apply_sync_completed COMPLETION_EVENT_NAME t
          = .error "Sync time must never decrease" ∧
      r.applyOp (.applySyncCompleted COMPLETION_EVENT_NAME t) = r) ∧
    (r.confirmations_synced_until ≤ t →
      r.apply_sync_completed CONFIRMATION_EVENT_NAME t
          = .ok { r with confirmations_synced_until := t }) ∧
    (r.completions_synced_until ≤ t →
      r.apply_sync_completed COMPLETION_EVENT_NAME t
          = .ok { r with completions_synced_until := t }) ∧
    (∀ ops : List RecorderOp,
      r.confirmations_synced_until ≤ (r.runOps ops).confirmations_synced_until ∧
      r.completions_synced_until ≤ (r.runOps ops).completions_synced_until) := by
  refine ⟨?_, ?_, ?_, ?_, ?_⟩
  · intro h
    have he : r.apply_sync_completed CONFIRMATION_EVENT_NAME t
        = .error "Sync time must never decrease" := by
      simp [TransferRecorder.apply_sync_completed, CONFIRMATION_EVENT_NAME,
        TRANSFER_EVENT_NAME, h]
    exact ⟨he, by simp [TransferRecorder.applyOp, he]⟩
  · intro h
    have he : r.apply_sync_completed COMPLETION_EVENT_NAME t
        = .error "Sync time must never decrease" := by
      simp [TransferRecorder.apply_sync_completed, COMPLETION_EVENT_NAME,
        CONFIRMATION_EVENT_NAME, TRANSFER_EVENT_NAME, h]
    exact ⟨he, by simp [TransferRecorder.applyOp, he]⟩
  · intro h
    simp [TransferRecorder.apply_sync_completed, CONFIRMATION_EVENT_NAME,
      TRANSFER_EVENT_NAME, not_lt.mpr h]
  · intro h
    simp [TransferRecorder.apply_sync_completed, COMPLETION_EVENT_NAME,
      CONFIRMATION_EVENT_NAME, TRANSFER_EVENT_NAME, not_lt.mpr h]
  · intro ops
    exact ⟨(runOps_mono r ops).2.2.1, (runOps_mono r ops).2.2.2⟩

/-- Witness for C4 at the concrete recorder `recS` (both watermarks at
`5`): timestamp `3` is rejected leaving the state unchanged, and
timestamp `7` advances the watermarks. -/
theorem apply_sync_completed_spec_witness :
    recS.apply_sync_completed CONFIRMATION_EVENT_NAME 3
        = .error "Sync time must never decrease" ∧
    recS.applyOp (.applySyncCompleted CONFIRMATION_EVENT_NAME 3) = recS ∧
    recS.apply_sync_completed COMPLETION_EVENT_NAME 3
        = .error "Sync time must never decrease" ∧
    recS.applyOp (.applySyncCompleted COMPLETION_EVENT_NAME 3) = recS ∧
    recS.apply_sync_completed CONFIRMATION_EVENT_NAME 7
        = .ok { recS with confirmations_synced_until := 7 } ∧
    recS.apply_sync_completed COMPLETION_EVENT_NAME 7
        = .ok { recS with completions_synced_until := 7 } :=
  ⟨((apply_sync_completed_spec recS 3).1 (by decide)).1,
   ((apply_sync_completed_spec recS 3).1 (by decide)).2,
   ((apply_sync_completed_spec recS 3).2.1 (by decide)).1,
   ((apply_sync_completed_spec recS 3).2.1 (by decide)).2,
   (apply_sync_completed_spec recS 7).2.2.1 (by decide),
   (apply_sync_completed_spec recS 7).2.2.2.1 (by decide)⟩

/-- C10: `apply_sync_completed` with event name `Transfer` silently
succeeds and leaves the whole recorder unchanged, for every timestamp;
any event name other than the three known ones raises `ValueError`. -/
theorem apply_sync_completed_transfer_unknown (r : TransferRecorder)
    (t : ℚ) (event : String) :
    r.apply_sync_completed TRANSFER_EVENT_NAME t = .ok r ∧
    (event ≠ TRANSFER_EVENT_NAME → event ≠ CONFIRMATION_EVENT_NAME →
      event ≠ COMPLETION_EVENT_NAME →
      r.apply_sync_completed event t = .error ("Got unknown event " ++ event)) := by
  constructor
  · simp [TransferRecorder.apply_sync_completed]
  · intro h1 h2 h3
    simp [TransferRecorder.apply_sync_completed, h1, h2, h3]

/-- Witness for C10: on the concrete recorder `recS`, a `Transfer` sync
notification with timestamp `0` (far below both watermarks) is a silent
no-op, and the unknown event name `Deposit` is rejected. -/
theorem apply_sync_completed_transfer_unknown_witness :
    recS.apply_sync_completed TRANSFER_EVENT_NAME 0 = .ok recS ∧
    recS.apply_sync_completed "Deposit" 0
        = .error ("Got unknown event " ++ "Deposit") :=
  ⟨(apply_sync_completed_transfer_unknown recS 0 "Deposit").1,
   (apply_sync_completed_transfer_unknown recS 0 "Deposit").2
     (by decide) (by decide) (by decide)⟩

/-- C5: starting from a fresh recorder, after any sequence of recorder
calls (`apply_event`, `apply_sync_completed`, `get_unconfirmed_transfers`,
`clear_transfers`) the scheduled set is a subset of the seen-transfers
set. -/
theorem scheduled_subset_seen_transfers (sync_persistence_time : ℚ)
    (ops : List RecorderOp) :
    ((freshRecorder sync_persistence_time).runOps ops).scheduled_hashes
      ⊆ ((freshRecorder sync_persistence_time).runOps ops).transfer_hashes :=
  runOps_scheduled_subset (by simp [freshRecorder]) ops

/-- C9: `clear_transfers` leaves `seen_confirmations`, `seen_completions`,
both sync watermarks and `sync_persistence_time` unchanged, and no
recorder call ever removes a hash from the confirmation or completion
sets. -/
theorem clear_transfers_frame (r : TransferRecorder) :
    (r.clear_transfers.confirmation_hashes = r.confirmation_hashes ∧
     r.clear_transfers.completion_hashes = r.completion_hashes ∧
     r.clear_transfers.confirmations_synced_until = r.confirmations_synced_until ∧
     r.clear_transfers.completions_synced_until = r.completions_synced_until ∧
     r.clear_transfers.sync_persistence_time = r.sync_persistence_time) ∧
    (∀ ops : List RecorderOp,
      r.confirmation_hashes ⊆ (r.runOps ops).confirmation_hashes ∧
      r.completion_hashes ⊆ (r.runOps ops).completion_hashes) :=
  ⟨⟨rfl, rfl, rfl, rfl, rfl⟩,
   fun ops => ⟨(runOps_mono r ops).1, (runOps_mono r ops).2.1⟩⟩

/-- C6: `clear_transfers` removes exactly the hashes of
`seen_transfers ∩ seen_confirmations ∩ seen_completions` from the
seen-transfers set, the scheduled set, and the `transfer_events` map;
consequently (whenever, as maintained by the recorder, every key of
`transfer_events` is a seen transfer) no hash with an entry in
`transfer_events` remains in `seen_confirmations ∩ seen_completions`. -/
theorem clear_transfers_spec (r : TransferRecorder)
    (hkeys : keysOf r.transfer_events ⊆ r.transfer_hashes) :
    r.clear_transfers.transfer_hashes
        = r.transfer_hashes
          \ (r.transfer_hashes ∩ r.confirmation_hashes ∩ r.completion_hashes) ∧
    r.clear_transfers.scheduled_hashes
        = r.scheduled_hashes
          \ (r.transfer_hashes ∩ r.confirmation_hashes ∩ r.completion_hashes) ∧
    keysOf r.clear_transfers.transfer_events
        = keysOf r.transfer_events
          \ (r.transfer_hashes ∩ r.confirmation_hashes ∩ r.completion_hashes) ∧
    keysOf r.clear_transfers.transfer_events
        ∩ (r.clear_transfers.confirmation_hashes
            ∩ r.clear_transfers.completion_hashes) = ∅ := by
  have hkeysClear : ∀ h : Hash32,
      h ∈ keysOf r.clear_transfers.transfer_events ↔
        h ∈ keysOf r.transfer_events ∧
          h ∉ r.transfer_hashes ∩ r.confirmation_hashes ∩ r.completion_hashes := by
    intro h
    rw [mem_keysOf]
    show (List.lookup h (r.transfer_events.filter _)).isSome ↔ _
    rw [lookup_filter_not_mem]
    by_cases hall : h ∈ r.transfer_hashes ∩ r.confirmation_hashes ∩ r.completion_hashes
    · rw [if_pos hall]
      constructor
      · intro hfalse
        simp at hfalse
      · rintro ⟨-, hna⟩
        exact absurd hall hna
    · rw [if_neg hall]
      constructor
      · intro hsome
        exact ⟨mem_keysOf.mpr hsome, hall⟩
      · rintro ⟨hk, -⟩
        exact mem_keysOf.mp hk
  refine ⟨rfl, rfl, ?_, ?_⟩
  · ext h
    rw [Finset.mem_sdiff]
    exact hkeysClear h
  · ext h
    simp only [Finset.mem_inter, Finset.not_mem_empty, iff_false, not_and]
    intro hk
    have hk2 := (hkeysClear h).mp hk
    intro hc hp
    exact hk2.2 (by
      refine Finset.mem_inter.mpr ⟨Finset.mem_inter.mpr ⟨hkeys hk2.1, ?_⟩, ?_⟩
      · exact hc
      · exact hp)

/-- Witness for C6 at the concrete recorder `recC`: transfer `1` has been
seen at all three stages and is garbage-collected; transfer `2` stays and
is not confirmed-and-completed. -/
theorem clear_transfers_spec_witness :
    keysOf recC.transfer_events ⊆ recC.transfer_hashes ∧
    recC.clear_transfers.transfer_hashes
        = recC.transfer_hashes
          \ (recC.transfer_hashes ∩ recC.confirmation_hashes ∩ recC.completion_hashes) ∧
    keysOf recC.clear_transfers.transfer_events
        ∩ (recC.clear_transfers.confirmation_hashes
            ∩ recC.clear_transfers.completion_hashes) = ∅ :=
  ⟨by decide,
   (clear_transfers_spec recC (by decide)).1,
   (clear_transfers_spec recC (by decide)).2.2.2⟩

/-- Updating only the scheduled set does not change whether the recorder
is in sync. -/
theorem is_in_sync_update_scheduled (r : TransferRecorder) (s : Finset Hash32)
    (t : ℚ) :
    ({ r with scheduled_hashes := s } : TransferRecorder).is_in_sync t
      = r.is_in_sync t := rfl

/-- `is_in_sync` spelt out: the current time is at most the smaller
watermark plus the sync persistence time. -/
theorem is_in_sync_iff (r : TransferRecorder) (t : ℚ) :
    r.is_in_sync t = true ↔
      t ≤ min r.confirmations_synced_until r.completions_synced_until
            + r.sync_persistence_time := by
  simp [TransferRecorder.is_in_sync, python_min_eq_min]

/-- C7: `get_unconfirmed_transfers` is idempotent within one time-tick: a
second call with the same `now`, immediately after a first one, returns
the empty list. -/
theorem get_unconfirmed_transfers_idempotent (r : TransferRecorder)
    (current_time : ℚ) :
    ((r.get_unconfirmed_transfers current_time).2.get_unconfirmed_transfers
        current_time).1 = [] := by
  by_cases hs : r.is_in_sync current_time = true
  · have h2 : (r.get_unconfirmed_transfers current_time).2
        = { r with scheduled_hashes := r.scheduled_hashes ∪
              (((r.transfer_hashes \ r.confirmation_hashes)
                \ r.completion_hashes) \ r.scheduled_hashes) } := by
      simp [TransferRecorder.get_unconfirmed_transfers, hs]
    have hempty : ((r.transfer_hashes \ r.confirmation_hashes)
          \ r.completion_hashes)
        \ (r.scheduled_hashes ∪
            (((r.transfer_hashes \ r.confirmation_hashes)
              \ r.completion_hashes) \ r.scheduled_hashes)) = ∅ := by
      ext h
      simp only [Finset.mem_sdiff, Finset.mem_union, Finset.not_mem_empty,
        iff_false, not_and, not_or, not_not]
      tauto
    rw [h2]
    simp only [TransferRecorder.get_unconfirmed_transfers,
      is_in_sync_update_scheduled, hs, if_true]
    simp only [hempty, Finset.sort_empty, List.filterMap_nil]
  · have h2 : (r.get_unconfirmed_transfers current_time).2 = r := by
      simp [TransferRecorder.get_unconfirmed_transfers, hs]
    rw [h2]
    simp [TransferRecorder.get_unconfirmed_transfers, hs]

/-- C1: when `now` is within the sync bound,
`get_unconfirmed_transfers(now)` returns exactly the stored transfer
events whose hashes are seen transfers but neither confirmed, completed
nor already scheduled, and marks exactly those hashes as scheduled;
when `now` exceeds the bound it returns the empty list and leaves the
recorder unchanged.  (The side condition `hkeys`, maintained by the
recorder, rules out the `KeyError` case of the list comprehension.) -/
theorem get_unconfirmed_transfers_spec (r : TransferRecorder) (now : ℚ)
    (hkeys : r.transfer_hashes ⊆ keysOf r.transfer_events) :
    (now ≤ min r.confirmations_synced_until r.completions_synced_until
        + r.sync_persistence_time →
      (∀ e, e ∈ (r.get_unconfirmed_transfers now).1 ↔
        ∃ h, h ∈ r.transfer_hashes ∧ h ∉ r.confirmation_hashes ∧
          h ∉ r.completion_hashes ∧ h ∉ r.scheduled_hashes ∧
          List.lookup h r.transfer_events = some e) ∧
      (r.get_unconfirmed_transfers now).1.length
        = (((r.transfer_hashes \ r.confirmation_hashes)
            \ r.completion_hashes) \ r.scheduled_hashes).card ∧
      (r.get_unconfirmed_transfers now).2
        = { r with scheduled_hashes := r.scheduled_hashes ∪
              r.transfer_hashes.filter (fun h =>
                h ∉ r.confirmation_hashes ∧ h ∉ r.completion_hashes) }) ∧
    (¬ now ≤ min r.confirmations_synced_until r.completions_synced_until
        + r.sync_persistence_time →
      r.get_unconfirmed_transfers now = ([], r)) := by
  constructor
  · intro hmin
    have hs : r.is_in_sync now = true := (is_in_sync_iff r now).mpr hmin
    have h1 : (r.get_unconfirmed_transfers now).1
        = ((((r.transfer_hashes \ r.confirmation_hashes)
              \ r.completion_hashes) \ r.scheduled_hashes).sort (· ≤ ·)).filterMap
            (fun h => List.lookup h r.transfer_events) := by
      simp [TransferRecorder.get_unconfirmed_transfers, hs]
    refine ⟨?_, ?_, ?_⟩
    · intro e
      rw [h1]
      simp only [List.mem_filterMap, Finset.mem_sort, Finset.mem_sdiff]
      constructor
      · rintro ⟨h, ⟨⟨⟨hT, hC⟩, hP⟩, hS⟩, hl⟩
        exact ⟨h, hT, hC, hP, hS, hl⟩
      · rintro ⟨h, hT, hC, hP, hS, hl⟩
        exact ⟨h, ⟨⟨⟨hT, hC⟩, hP⟩, hS⟩, hl⟩
    · rw [h1, length_filterMap_of_isSome]
      · exact Finset.length_sort _
      · intro h hmem
        rw [Finset.mem_sort] at hmem
        have hT : h ∈ r.transfer_hashes :=
          (Finset.mem_sdiff.mp
            (Finset.mem_sdiff.mp (Finset.mem_sdiff.mp hmem).1).1).1
        exact mem_keysOf.mp (hkeys hT)
    · have h2 : (r.get_unconfirmed_transfers now).2
          = { r with scheduled_hashes := r.scheduled_hashes ∪
                (((r.transfer_hashes \ r.confirmation_hashes)
                  \ r.completion_hashes) \ r.scheduled_hashes) } := by
        simp [TransferRecorder.get_unconfirmed_transfers, hs]
      rw [h2]
      have hu : r.scheduled_hashes ∪
            (((r.transfer_hashes \ r.confirmation_hashes)
              \ r.completion_hashes) \ r.scheduled_hashes)
          = r.scheduled_hashes ∪
            r.transfer_hashes.filter
              (fun h => h ∉ r.confirmation_hashes ∧ h ∉ r.completion_hashes) := by
        ext h
        simp only [Finset.mem_union, Finset.mem_sdiff, Finset.mem_filter]
        tauto
      rw [hu]
  · intro hmin
    have hs : r.is_in_sync now = false := by
      simp [TransferRecorder.is_in_sync, python_min_eq_min, hmin]
    simp [TransferRecorder.get_unconfirmed_transfers, hs]

/-- Witness for C1 at the concrete recorder `recC` (watermarks `0`,
persistence time `1`): at `now = 0` the call schedules exactly transfer
`2`; at `now = 5` the recorder is out of sync and nothing happens. -/
theorem get_unconfirmed_transfers_spec_witness :
    recC.transfer_hashes ⊆ keysOf recC.transfer_events ∧
    ((0 : ℚ) ≤ min recC.confirmations_synced_until recC.completions_synced_until
        + recC.sync_persistence_time) ∧
    (recC.get_unconfirmed_transfers 0).2
        = { recC with scheduled_hashes := recC.scheduled_hashes ∪
              recC.transfer_hashes.filter (fun h =>
                h ∉ recC.confirmation_hashes ∧ h ∉ recC.completion_hashes) } ∧
    recC.get_unconfirmed_transfers 5 = ([], recC) :=
  ⟨by decide,
   by simp [recC],
   ((get_unconfirmed_transfers_spec recC 0 (by decide)).1 (by simp [recC])).2.2,
   (get_unconfirmed_transfers_spec recC 5 (by decide)).2 (by simp [recC])⟩

/-- C8: the Sender builds the `confirmTransfer` call with
`transferHash = compute_transfer_hash(event)`, `transactionHash` the
event's transaction hash, `amount` the event's `value` argument,
`recipient` the event's `from` argument (the depositor), and the
hard-coded gas limit rather than a gas estimate. -/
theorem prepare_confirmation_transaction_fields (transfer_event : TransferEvent)
    (gas_price : ℕ) (nonce : ℕ) :
    (prepare_confirmation_transaction transfer_event gas_price nonce).transferHash
        = compute_transfer_hash transfer_event ∧
    (prepare_confirmation_transaction transfer_event gas_price nonce).transactionHash
        = transfer_event.transactionHash ∧
    (prepare_confirmation_transaction transfer_event gas_price nonce).amount
        = transfer_event.value ∧
    (prepare_confirmation_transaction transfer_event gas_price nonce).recipient
        = transfer_event.fromAddress ∧
    (prepare_confirmation_transaction transfer_event gas_price nonce).gas
        = CONFIRMATION_TRANSACTION_GAS_LIMIT :=
  ⟨rfl, rfl, rfl, rfl, rfl⟩

/-- C3: an event whose `to` address differs from the configured foreign
bridge contract address is dropped by the Sender's sanity check and
produces no transaction; an event whose `to` address matches is built and
signed via `prepare_confirmation_transaction`. -/
theorem sender_sanity_check_spec (foreign_bridge_contract_address : ℕ)
    (gas_price : ℕ) (nonce : ℕ) (transfer_event : TransferEvent) :
    (transfer_event.toAddress ≠ foreign_bridge_contract_address →
      sender_process_event foreign_bridge_contract_address gas_price nonce
        transfer_event = none) ∧
    (transfer_event.toAddress = foreign_bridge_contract_address →
      sender_process_event foreign_bridge_contract_address gas_price nonce
        transfer_event
        = some (prepare_confirmation_transaction transfer_event gas_price nonce)) := by
  constructor
  · intro h
    simp [sender_process_event, sanity_check_transfer, h]
  · intro h
    simp [sender_process_event, sanity_check_transfer, h]

/-- Witness for C3 at the concrete event `tEvent1` (whose `to` address is
`22`): with a foreign bridge address of `99` the event is dropped, with
`22` a transaction is produced. -/
theorem sender_sanity_check_spec_witness :
    sender_process_event 99 1 0 tEvent1 = none ∧
    sender_process_event 22 1 0 tEvent1
      = some (prepare_confirmation_transaction tEvent1 1 0) :=
  ⟨(sender_sanity_check_spec 99 1 0 tEvent1).1 (by decide),
   (sender_sanity_check_spec 22 1 0 tEvent1).2 (by decide)⟩

/-- C2: the claim expects a pass of the Confirmation Watcher over a queue
whose oldest transaction has no receipt (`TransactionNotFound`) to leave
the transaction in the queue, stop scanning, and complete without error.
Instead, `clear_confirmed_transactions` evaluates
`receipt.transactionHash` on the `None` returned by `_rpc_get_receipt`
before the `if receipt and ...` guard, so the pass raises
`AttributeError`: with head block `10` and `max_reorg_depth = 2`, a
one-element queue with an absent receipt makes the pass fail. -/
theorem watcher_crashes_on_missing_receipt :
    clear_confirmed_transactions absent_receipts 10 2 [{ hash := 1 }]
      = .error "AttributeError: NoneType object has no attribute transactionHash" :=
  rfl
